import Mathlib

/-!
Verification of the yeyak reservation pipeline (fetch_reservations.py and
compose_email.py) against its natural-language specification.

The development shallowly embeds the pipeline's pure logic:
records are structures of optional string fields, Python strings are Lean
strings, `datetime` values are seven-field structures of naturals, and the
effectful fetch loops are functions over explicit oracles describing what
each HTTP attempt / page fetch would return.
-/

namespace Yeyak

/-- Models Python's coercion `str(d.get(k) or "")`: a missing (`None`) or
empty field becomes the empty string. -/
def getS (o : Option String) : String := o.getD ""

/-- One reservation record, holding the eleven fields the pipeline reads
(`COMPACT_FIELDS` in fetch_reservations.py).  `none` models a missing key. -/
structure Rec where
  SVCID : Option String := none
  SVCNM : Option String := none
  SVCSTATNM : Option String := none
  AREANM : Option String := none
  USETGTINFO : Option String := none
  SVCURL : Option String := none
  RCPTBGNDT : Option String := none
  RCPTENDDT : Option String := none
  SVCOPNBGNDT : Option String := none
  SVCOPNENDDT : Option String := none
  PLACENM : Option String := none
deriving DecidableEq, Repr

/-- The fixed allow-set of district names (`areas` in `filter_rows`). -/
def areasL : List String := ["강남구", "서초구", "송파구"]

/-- The fixed allow-set of status names (`statuses` in `filter_rows`). -/
def statusesL : List String := ["접수중", "안내중"]

/-- The fixed usage-target substrings (`needles` in `filter_rows`). -/
def needlesL : List String := ["유아", "제한없음", "가족"]

/-- Python's substring test `n in s`, on the underlying character lists. -/
def strContains (s n : String) : Bool := decide (n.toList <:+: s.toList)

/-- `contains_any` from fetch_reservations.py: does the haystack contain
at least one of the needles as a plain substring? -/
def contains_any (haystack : String) (needles : List String) : Bool :=
  needles.any (fun n => strContains haystack n)

/-- Condition (1) ∧ (2) of `filter_rows`: area in the allow-set and status
in the allow-set. -/
def passes12 (r : Rec) : Bool :=
  areasL.contains (getS r.AREANM) && statusesL.contains (getS r.SVCSTATNM)

/-- Condition (3) of `filter_rows`: usage-target contains a needle. -/
def passes3 (r : Rec) : Bool := contains_any (getS r.USETGTINFO) needlesL

/-- `filter_rows` from fetch_reservations.py: one pass over the rows,
appending to `v12` when conditions (1) and (2) hold, and additionally to
`v123` when condition (3) also holds. -/
def filter_rows : List Rec → List Rec × List Rec
  | [] => ([], [])
  | r :: rs =>
    let rest := filter_rows rs
    if passes12 r then
      if passes3 r then (r :: rest.1, r :: rest.2)
      else (r :: rest.1, rest.2)
    else rest

theorem filter_rows_eq_filter (rows : List Rec) :
    filter_rows rows =
      (rows.filter passes12, rows.filter (fun r => passes12 r && passes3 r)) := by
  induction rows with
  | nil => rfl
  | cons r rs ih =>
    simp only [filter_rows, ih, List.filter_cons]
    by_cases h1 : passes12 r <;> by_cases h2 : passes3 r <;>
      simp [h1, h2]

/-! ## Timestamp parsing (`parse_dt`)

`parse_dt` calls `datetime.strptime` with five fixed formats.  The embedding
reproduces CPython's `_strptime`: each format compiles to a sequence of
tokens; each directive matches according to its regular-expression
alternatives, in alternation order, with backtracking; the first successful
prefix match (in backtracking order) is taken, must consume the whole
string, and the captured fields must form a valid `datetime` (calendar
validity is checked by the `datetime` constructor).  Whitespace handling is
modelled for the ASCII whitespace characters. -/

/-- Whitespace, as stripped by `str.strip` and matched by the pattern
in a format string (model restricted to the ASCII whitespace range). -/
def pySpace (c : Char) : Bool :=
  c = ' ' || c = '\t' || c = '\n' || c = '\r' || c = '\x0b' || c = '\x0c'

/-- Python's `str.strip()`: drop leading and trailing whitespace. -/
def pyStrip (cs : List Char) : List Char :=
  ((cs.dropWhile pySpace).reverse.dropWhile pySpace).reverse

/-- `str.strip()` on a `String`. -/
def pyStripS (s : String) : String := ⟨pyStrip s.toList⟩

/-- A parsed calendar instant: the seven fields of a Python `datetime`
relevant here (year, month, day, hour, minute, second, microsecond). -/
structure DateTime where
  year : Nat
  month : Nat
  day : Nat
  hour : Nat
  minute : Nat
  second : Nat
  usec : Nat
deriving DecidableEq, Repr

/-- Python's `datetime.max` = 9999-12-31 23:59:59.999999, the sentinel
used by `sort_key` when nothing parses. -/
def dtMax : DateTime := ⟨9999, 12, 31, 23, 59, 59, 999999⟩

/-- Mixed-radix encoding of a `DateTime`; on field-wise in-range values it
orders exactly like Python's lexicographic `datetime` comparison. -/
def dtCode (d : DateTime) : Nat :=
  ((((((d.year * 13 + d.month) * 32 + d.day) * 24 + d.hour) * 60 +
      d.minute) * 60 + d.second)) * 1000000 + d.usec

/-- Field-wise range validity, as enforced by the `datetime` constructor
(day upper bound relaxed to 31 here; the true month-length bound is
checked when the value is built). -/
def validDT (d : DateTime) : Bool :=
  1 ≤ d.year && d.year ≤ 9999 && 1 ≤ d.month && d.month ≤ 12 &&
  1 ≤ d.day && d.day ≤ 31 && d.hour ≤ 23 && d.minute ≤ 59 &&
  d.second ≤ 59 && d.usec ≤ 999999

/-- Python's lexicographic ordering on `datetime` values. -/
def dtLex (a b : DateTime) : Prop :=
  a.year < b.year ∨ (a.year = b.year ∧
    (a.month < b.month ∨ (a.month = b.month ∧
      (a.day < b.day ∨ (a.day = b.day ∧
        (a.hour < b.hour ∨ (a.hour = b.hour ∧
          (a.minute < b.minute ∨ (a.minute = b.minute ∧
            (a.second < b.second ∨ (a.second = b.second ∧
              a.usec ≤ b.usec)))))))))))

instance (a b : DateTime) : Decidable (dtLex a b) := by
  unfold dtLex; infer_instance

/-- The format-directive tokens appearing in the five formats used by
`parse_dt`. -/
inductive FTok where
  | lit (c : Char)
  | ws
  | dY
  | dm
  | dd
  | dH
  | dM
  | dS
  | df
deriving DecidableEq, Repr

/-- Captured fields of a `strptime` match, with CPython's defaults
(year 1900, month 1, day 1, everything else 0). -/
structure RawFields where
  y : Nat := 1900
  mo : Nat := 1
  da : Nat := 1
  h : Nat := 0
  mi : Nat := 0
  s : Nat := 0
  us : Nat := 0
deriving DecidableEq, Repr

def digitVal (c : Char) : Nat := c.toNat - 48

/-- Is `c` in the inclusive character range `lo`..`hi`? -/
def chIn (c lo hi : Char) : Bool := lo.toNat ≤ c.toNat && c.toNat ≤ hi.toNat

/-- Match a two-digit alternative such as the pattern piece matching a '1'
followed by one of '0'..'2': both predicates must accept. -/
def alt2 (p1 p2 : Char → Bool) : List Char → Option (Nat × List Char)
  | c1 :: c2 :: rest =>
    if p1 c1 && p2 c2 then some (digitVal c1 * 10 + digitVal c2, rest) else none
  | _ => none

/-- Match a one-digit alternative. -/
def alt1 (p : Char → Bool) : List Char → Option (Nat × List Char)
  | c :: rest => if p c then some (digitVal c, rest) else none
  | [] => none

/-- Directive Y: exactly four digits. -/
def matchY : List Char → List (Nat × List Char)
  | a :: b :: c :: d :: rest =>
    if a.isDigit && b.isDigit && c.isDigit && d.isDigit then
      [(((digitVal a * 10 + digitVal b) * 10 + digitVal c) * 10 + digitVal d, rest)]
    else []
  | _ => []

/-- Directive m, alternatives in alternation order:
two digits 10-12, two digits 01-09, one digit 1-9. -/
def matchm (cs : List Char) : List (Nat × List Char) :=
  [alt2 (· = '1') (chIn · '0' '2') cs,
   alt2 (· = '0') (chIn · '1' '9') cs,
   alt1 (chIn · '1' '9') cs].filterMap id

/-- Directive d: 30-31, 10-29, 01-09, 1-9. -/
def matchd (cs : List Char) : List (Nat × List Char) :=
  [alt2 (· = '3') (chIn · '0' '1') cs,
   alt2 (chIn · '1' '2') Char.isDigit cs,
   alt2 (· = '0') (chIn · '1' '9') cs,
   alt1 (chIn · '1' '9') cs].filterMap id

/-- Directive H: 20-23, 00-19, one digit. -/
def matchH (cs : List Char) : List (Nat × List Char) :=
  [alt2 (· = '2') (chIn · '0' '3') cs,
   alt2 (chIn · '0' '1') Char.isDigit cs,
   alt1 Char.isDigit cs].filterMap id

/-- Directive M: 00-59, one digit. -/
def matchMin (cs : List Char) : List (Nat × List Char) :=
  [alt2 (chIn · '0' '5') Char.isDigit cs,
   alt1 Char.isDigit cs].filterMap id

/-- Directive S: 60-61 (leap seconds), 00-59, one digit. -/
def matchS (cs : List Char) : List (Nat × List Char) :=
  [alt2 (· = '6') (chIn · '0' '1') cs,
   alt2 (chIn · '0' '5') Char.isDigit cs,
   alt1 Char.isDigit cs].filterMap id

def natOfDigits (ds : List Char) : Nat :=
  ds.foldl (fun a c => a * 10 + digitVal c) 0

/-- Directive f: one to six digits, greedy (longest alternative first);
the captured digits are right-padded with zeros to six places. -/
def matchf (cs : List Char) : List (Nat × List Char) :=
  let run := (cs.takeWhile Char.isDigit).take 6
  (List.range run.length).map (fun i =>
    let k := run.length - i
    (natOfDigits (run.take k) * 10 ^ (6 - k), cs.drop k))

/-- Whitespace in a format string matches one or more whitespace
characters, greedily (longest alternative first). -/
def matchWs (cs : List Char) : List (Nat × List Char) :=
  let run := (cs.takeWhile pySpace).length
  (List.range run).map (fun i => (0, cs.drop (run - i)))

/-- Alternatives (capture value, remaining input) for one token, in
regular-expression backtracking order. -/
def tokAlts (t : FTok) (cs : List Char) : List (Nat × List Char) :=
  match t with
  | .lit c =>
    match cs with
    | c' :: rest => if c' = c then [(0, rest)] else []
    | [] => []
  | .ws => matchWs cs
  | .dY => matchY cs
  | .dm => matchm cs
  | .dd => matchd cs
  | .dH => matchH cs
  | .dM => matchMin cs
  | .dS => matchS cs
  | .df => matchf cs

/-- Record a directive's captured value in the field set. -/
def setField (t : FTok) (v : Nat) (rf : RawFields) : RawFields :=
  match t with
  | .lit _ => rf
  | .ws => rf
  | .dY => { rf with y := v }
  | .dm => { rf with mo := v }
  | .dd => { rf with da := v }
  | .dH => { rf with h := v }
  | .dM => { rf with mi := v }
  | .dS => { rf with s := v }
  | .df => { rf with us := v }

/-- All prefix matches of a token sequence against the input, in
backtracking order, each with its captured fields and leftover input. -/
def runToks : List FTok → RawFields → List Char → List (RawFields × List Char)
  | [], rf, cs => [(rf, cs)]
  | t :: ts, rf, cs =>
    (tokAlts t cs).flatMap (fun vr => runToks ts (setField t vr.1 rf) vr.2)

/-- Month lengths, with the Gregorian leap-year rule. -/
def daysInMonth (y m : Nat) : Nat :=
  if m = 2 then
    (if y % 4 = 0 && (y % 100 ≠ 0 || y % 400 = 0) then 29 else 28)
  else if m = 4 || m = 6 || m = 9 || m = 11 then 30 else 31

/-- The `datetime` constructor: range-check every field (including real
month length) and build the value, or fail. -/
def mkDT (rf : RawFields) : Option DateTime :=
  if 1 ≤ rf.y && rf.y ≤ 9999 && 1 ≤ rf.mo && rf.mo ≤ 12 &&
     1 ≤ rf.da && rf.da ≤ daysInMonth rf.y rf.mo && rf.h ≤ 23 &&
     rf.mi ≤ 59 && rf.s ≤ 59 && rf.us ≤ 999999 then
    some ⟨rf.y, rf.mo, rf.da, rf.h, rf.mi, rf.s, rf.us⟩
  else none

/-- `datetime.strptime(data, fmt)`: take the first prefix match in
backtracking order; it must consume the entire input; then the captured
fields must pass the constructor's validation. -/
def parse_fmt (toks : List FTok) (cs : List Char) : Option DateTime :=
  match runToks toks {} cs with
  | [] => none
  | (rf, rest) :: _ => if rest.isEmpty then mkDT rf else none

/-- Format `%Y-%m-%d %H:%M:%S.%f`. -/
def fmt1 : List FTok :=
  [.dY, .lit '-', .dm, .lit '-', .dd, .ws, .dH, .lit ':', .dM, .lit ':',
   .dS, .lit '.', .df]

/-- Format `%Y-%m-%d %H:%M:%S`. -/
def fmt2 : List FTok :=
  [.dY, .lit '-', .dm, .lit '-', .dd, .ws, .dH, .lit ':', .dM, .lit ':', .dS]

/-- Format `%Y-%m-%d`. -/
def fmt3 : List FTok := [.dY, .lit '-', .dm, .lit '-', .dd]

/-- Format `%Y%m%d%H%M%S`. -/
def fmt4 : List FTok := [.dY, .dm, .dd, .dH, .dM, .dS]

/-- Format `%Y%m%d`. -/
def fmt5 : List FTok := [.dY, .dm, .dd]

/-- The five formats, in the precedence order of `parse_dt`. -/
def fmts : List (List FTok) := [fmt1, fmt2, fmt3, fmt4, fmt5]

/-- The `for fmt in fmts: try ... except: pass` loop of `parse_dt`. -/
def tryFmts : List (List FTok) → List Char → Option DateTime
  | [], _ => none
  | f :: fs, cs =>
    match parse_fmt f cs with
    | some d => some d
    | none => tryFmts fs cs

/-- `parse_dt` from fetch_reservations.py / compose_email.py: empty input
is unparseable; otherwise strip whitespace and try the five formats in
order, returning the first success or `none`. -/
def parse_dt (str : String) : Option DateTime :=
  if str = "" then none
  else tryFmts fmts (pyStrip str.toList)

/-- `sort_key`: the parsed reception-begin timestamp, else the parsed
operation-begin timestamp, else `datetime.max` (Python's `or` chain;
`datetime` values are always truthy). -/
def sort_key (r : Rec) : DateTime :=
  match parse_dt (getS r.RCPTBGNDT) with
  | some d => d
  | none =>
    match parse_dt (getS r.SVCOPNBGNDT) with
    | some d => d
    | none => dtMax

/-- The comparison `sorted(rows, key=sort_key)` sorts by. -/
def rowLe (a b : Rec) : Bool :=
  decide (dtCode (sort_key a) ≤ dtCode (sort_key b))

/-- Python's `sorted(rows, key=sort_key)`: a stable merge sort. -/
def sortRows (rows : List Rec) : List Rec := rows.mergeSort rowLe

/-! ## `fetch_page`: bounded retry with exponential backoff

The HTTP session is modelled as an oracle mapping the attempt number
(1-based) to what that attempt would observe. -/

def MAX_RETRIES : Nat := 3

def PAGE_SIZE : Nat := 1000

/-- What one `session.get` attempt observes: a connection error, a
timeout, or a response with a status code and (for 2xx) whether
`resp.json()` succeeds. -/
inductive Attempt where
  | connErr
  | timeoutErr
  | resp (status : Nat) (parseOk : Bool)
deriving DecidableEq, Repr

/-- How `fetch_page` ends. -/
inductive FetchOutcome where
  /-- returned the parsed body on attempt `k` -/
  | ok (k : Nat)
  /-- raised `HTTP {status}` immediately for a non-2xx/5xx response on attempt `k` -/
  | fatalStatus (status : Nat) (k : Nat)
  /-- raised `Server error {status}` on a 5xx response at the last attempt -/
  | serverErrFinal (status : Nat)
  /-- broke out and raised `Failed to fetch after retries` -/
  | exhausted
deriving DecidableEq, Repr

/-- Result of a `fetch_page` run: its outcome, the number of attempts
entered, and the backoff durations slept (in order). -/
structure FetchTrace where
  outcome : FetchOutcome
  attempts : Nat
  sleeps : List Nat
deriving DecidableEq, Repr

/-- The `for attempt in range(1, MAX_RETRIES + 1)` loop of `fetch_page`;
`remaining` is `MAX_RETRIES - attempt + 1`, the loop iterations left. -/
def fetchLoop (att : Nat → Attempt) :
    (remaining attempt backoff : Nat) → List Nat → FetchTrace
  | 0, _, _, sleeps => ⟨.exhausted, MAX_RETRIES, sleeps⟩
  | remaining + 1, attempt, backoff, sleeps =>
    match att attempt with
    | .connErr | .timeoutErr =>
      if remaining = 0 then ⟨.exhausted, attempt, sleeps⟩
      else fetchLoop att remaining (attempt + 1) (backoff * 2) (sleeps ++ [backoff])
    | .resp status parseOk =>
      if 200 ≤ status ∧ status < 300 then
        if parseOk then ⟨.ok attempt, attempt, sleeps⟩
        else if remaining = 0 then ⟨.exhausted, attempt, sleeps⟩
        else fetchLoop att remaining (attempt + 1) (backoff * 2) (sleeps ++ [backoff])
      else if 500 ≤ status ∧ status < 600 then
        if remaining = 0 then ⟨.serverErrFinal status, attempt, sleeps⟩
        else fetchLoop att remaining (attempt + 1) (backoff * 2) (sleeps ++ [backoff])
      else ⟨.fatalStatus status attempt, attempt, sleeps⟩

/-- `fetch_page` from fetch_reservations.py, as a trace over the attempt
oracle: up to `MAX_RETRIES` attempts, backoff starting at 1. -/
def fetch_page (att : Nat → Attempt) : FetchTrace :=
  fetchLoop att MAX_RETRIES 1 1 []

/-- An attempt outcome the retry loop treats as retryable: a connection
error, a timeout, a 2xx response whose body fails to parse, or a 5xx. -/
def retryable : Attempt → Bool
  | .connErr => true
  | .timeoutErr => true
  | .resp status parseOk =>
    (decide (200 ≤ status ∧ status < 300) && !parseOk) ||
      decide (500 ≤ status ∧ status < 600)

/-! ## The Fetcher's `main`: pagination

The run is modelled over a world giving the API key and, for each page
number, the already-extracted payload that fetching that page would yield
(`.error` models `fetch_page` raising after retries).  The unbounded
probing loop used when the declared total is not positive consumes
explicit fuel; `none` means the fuel ran out. -/

/-- The environment of one Fetcher run. -/
structure FetchWorld where
  /-- `os.environ.get("SEOUL_API_KEY")` after `.env` loading -/
  apiKey : Option String
  /-- page number ↦ `extract_payload(fetch_page(...))`, or a raised error -/
  pageData : Nat → Except Unit (Int × List Rec)

/-- The 1-indexed start/end range requested for page `p`. -/
def pageRange (p : Nat) : Nat × Nat :=
  ((p - 1) * PAGE_SIZE + 1, p * PAGE_SIZE)

/-- `ceil(total / PAGE_SIZE)`, as computed by
`(total_count + PAGE_SIZE - 1) // PAGE_SIZE`. -/
def totalPages (tc : Nat) : Nat := (tc + PAGE_SIZE - 1) / PAGE_SIZE

/-- The `for p in range(2, total_pages + 1)` loop: fetch the listed pages
in order, stopping early on a fetch error (exit 3) or an empty page.
Returns the gathered rows (or the error) and the ranges fetched. -/
def fetchRest (w : FetchWorld) : List Nat → Except Unit (List Rec) × List (Nat × Nat)
  | [] => (.ok [], [])
  | p :: rest =>
    match w.pageData p with
    | .error _ => (.error (), [pageRange p])
    | .ok (_, rows) =>
      if rows.isEmpty then (.ok [], [pageRange p])
      else
        let r := fetchRest w rest
        (r.1.map (fun acc => rows ++ acc), pageRange p :: r.2)

/-- The `while True` probing loop used when the declared total is not
positive: fetch pages from `p` upward until an empty page, an error, or
fuel exhaustion. -/
def probePages (w : FetchWorld) :
    Nat → Nat → Option (Except Unit (List Rec) × List (Nat × Nat))
  | 0, _ => none
  | fuel + 1, p =>
    match w.pageData p with
    | .error _ => some (.error (), [pageRange p])
    | .ok (_, rows) =>
      if rows.isEmpty then some (.ok [], [pageRange p])
      else
        (probePages w fuel (p + 1)).map
          (fun r => (r.1.map (fun acc => rows ++ acc), pageRange p :: r.2))

/-- The four output files, in the order `main` writes them. -/
def outFiles : List String :=
  ["seoul_education_all.json", "seoul_education_v12.json",
   "seoul_education_v123.json", "seoul_education_summary.csv"]

/-- Result of one Fetcher run: the process exit code, the output files
written, and the page ranges fetched, in order. -/
structure RunResult where
  exitCode : Nat
  files : List String
  ranges : List (Nat × Nat)
deriving DecidableEq, Repr

/-- `main` from fetch_reservations.py over a `FetchWorld`.  Missing/empty
key → exit 2 with nothing written; any page-fetch failure → exit 3 with
nothing written; otherwise all pages are gathered, sorted, filtered, and
the four files are written, exit 0. -/
def fetcherMain (w : FetchWorld) (fuel : Nat) : Option RunResult :=
  if pyStripS (w.apiKey.getD "") = "" then some ⟨2, [], []⟩
  else
    match w.pageData 1 with
    | .error _ => some ⟨3, [], [pageRange 1]⟩
    | .ok (total, _) =>
      match (if total > 0 then
          some (fetchRest w (List.range' 2 (totalPages total.toNat - 1)))
        else probePages w fuel 2) with
      | none => none
      | some (.error _, rs) => some ⟨3, [], pageRange 1 :: rs⟩
      | some (.ok _, rs) => some ⟨0, outFiles, pageRange 1 :: rs⟩

/-! ## The Composer (compose_email.py) -/

/-- An entry of a parsed JSON array: a JSON object (coerced to a record)
or any non-object value. -/
inductive JItem where
  | obj (r : Rec)
  | nonObj
deriving DecidableEq, Repr

/-- The root of a parsed input file: a JSON array or anything else. -/
inductive JRoot where
  | arr (items : List JItem)
  | nonArr
deriving DecidableEq, Repr

/-- `load_list`: a missing file or a non-array root is fatal with exit
code 3; non-object entries of an array are silently dropped. -/
def load_list : Option JRoot → Except Nat (List Rec)
  | none => .error 3
  | some .nonArr => .error 3
  | some (.arr items) =>
    .ok (items.filterMap (fun it => match it with | .obj r => some r | .nonObj => none))

/-- Models `str(row.get(k) or "-")`: a missing or empty field becomes the
placeholder dash. -/
def orDash (o : Option String) : String :=
  if getS o = "" then "-" else getS o

/-- `trunc` from compose_email.py: empty input becomes the dash; a string
within the limit is unchanged; otherwise keep the first `n - 1`
characters and append one ellipsis character. -/
def trunc (s : String) (n : Nat) : String :=
  let t := if s = "" then "-" else s
  if t.length ≤ n then t else (t.take (n - 1)).push '…'

/-- The deep-link URL prefix used by `line_for`. -/
def linkPrefix : String :=
  "https://yeyak.seoul.go.kr/web/reservation/selectReservView.do?rsv_svc_id="

/-- `line_for` from compose_email.py: one rendered record line. -/
def line_for (r : Rec) : String :=
  let areanm := trunc (orDash r.AREANM) 10
  let svcnm := trunc (orDash r.SVCNM) 40
  let svcstat := trunc (orDash r.SVCSTATNM) 10
  let rcpbgn := trunc (orDash r.RCPTBGNDT) 19
  let rcpend := trunc (orDash r.RCPTENDDT) 19
  let svcid := orDash r.SVCID
  let link := if svcid ≠ "-" then linkPrefix ++ svcid else "-"
  "- [" ++ areanm ++ "] " ++ svcnm ++ " (" ++ svcstat ++ ") | 접수: " ++
    rcpbgn ++ " ~ " ++ rcpend ++ " | 링크: " ++ link

/-- The fixed sentence rendered for an empty section. -/
def noMatchLine : String := "해당 조건에 맞는 항목이 없습니다."

/-- The count line `총 N건`. -/
def countLine (n : Nat) : String := "총 " ++ toString n ++ "건"

/-- `section` from compose_email.py, as the list of output lines (the
program joins them with newlines): title, blank, count line, blank, then
either the fixed no-match sentence or one line per record for the first
ten records after sorting. -/
def sectionLines (title : String) (rows : List Rec) : List String :=
  [title, "", countLine rows.length, ""] ++
    (if rows.isEmpty then [noMatchLine]
     else ((sortRows rows).take 10).map line_for)

/-- `main` from compose_email.py: load both files (first failure's exit
code wins), render the digest, exit 0. -/
def composerMain (v12 v123 : Option JRoot) : Nat :=
  match load_list v12 with
  | .error c => c
  | .ok _ =>
    match load_list v123 with
    | .error c => c
    | .ok _ => 0

/-! ## Claims about the filter pipeline (C1, C2, C6) -/

/-- The spec's scenario record: area 강남구, status 접수중, usage-target
영유아 및 가족 대상. -/
def scenarioRec : Rec :=
  { AREANM := some "강남구", SVCSTATNM := some "접수중",
    USETGTINFO := some "영유아 및 가족 대상" }

theorem mem_filter_rows_fst (rows : List Rec) (r : Rec) :
    r ∈ (filter_rows rows).1 ↔
      r ∈ rows ∧ getS r.AREANM ∈ areasL ∧ getS r.SVCSTATNM ∈ statusesL := by
  rw [filter_rows_eq_filter]
  simp [List.mem_filter, passes12, and_assoc]

theorem mem_filter_rows_snd (rows : List Rec) (r : Rec) :
    r ∈ (filter_rows rows).2 ↔
      r ∈ (filter_rows rows).1 ∧ contains_any (getS r.USETGTINFO) needlesL := by
  rw [filter_rows_eq_filter]
  simp [List.mem_filter, passes12, passes3, and_assoc]

/-- C1: a record is in the v12 output of `filter_rows` iff it occurs in
the input with area exactly one of {강남구, 서초구, 송파구} and status
exactly one of {접수중, 안내중}; among v12 records, it is in the v123
output iff its usage-target contains one of {유아, 제한없음, 가족} as a
plain substring; and the scenario record (강남구 / 접수중 /
영유아 및 가족 대상) is in both outputs. -/
theorem C1_filter_rows_characterization :
    (∀ (rows : List Rec) (r : Rec),
        r ∈ (filter_rows rows).1 ↔
          r ∈ rows ∧ getS r.AREANM ∈ areasL ∧ getS r.SVCSTATNM ∈ statusesL) ∧
    (∀ (rows : List Rec) (r : Rec),
        r ∈ (filter_rows rows).2 ↔
          r ∈ (filter_rows rows).1 ∧
            ∃ n ∈ needlesL, n.toList <:+: (getS r.USETGTINFO).toList) ∧
    (scenarioRec ∈ (filter_rows [scenarioRec]).1 ∧
      scenarioRec ∈ (filter_rows [scenarioRec]).2) := by
  refine ⟨mem_filter_rows_fst, fun rows r => ?_, by decide⟩
  rw [mem_filter_rows_snd]
  simp [contains_any, strContains]

/-- The record refuting C2 as stated: valid area and status, but a
missing usage-target field. -/
def c2Rec : Rec := { AREANM := some "강남구", SVCSTATNM := some "접수중" }

/-- C2 counterexample: a record whose usage-target field is missing (so
it renders as the empty string) nevertheless appears in the v12 output,
contradicting "appears in neither the v12 output nor the v123 output". -/
theorem C2_counterexample :
    getS c2Rec.USETGTINFO = "" ∧ c2Rec ∈ (filter_rows [c2Rec]).1 := by
  decide

/-- C2 amended: a record with an empty or missing area or status field
appears in neither output; a record with an empty or missing usage-target
field never appears in the v123 output (it may still appear in v12). -/
theorem C2_amended_empty_fields (rows : List Rec) (r : Rec) :
    ((getS r.AREANM = "" ∨ getS r.SVCSTATNM = "") →
      r ∉ (filter_rows rows).1 ∧ r ∉ (filter_rows rows).2) ∧
    (getS r.USETGTINFO = "" → r ∉ (filter_rows rows).2) := by
  constructor
  · intro h
    have h1 : r ∉ (filter_rows rows).1 := by
      rw [mem_filter_rows_fst]
      rintro ⟨-, hA, hS⟩
      rcases h with h | h
      · rw [h] at hA; revert hA; decide
      · rw [h] at hS; revert hS; decide
    refine ⟨h1, fun h2 => h1 ?_⟩
    exact ((mem_filter_rows_snd rows r).mp h2).1
  · intro h
    rw [mem_filter_rows_snd]
    rintro ⟨-, hc⟩
    rw [h] at hc
    revert hc; decide

theorem C2_amended_empty_fields_witness :
    (c2Rec ∉ (filter_rows [c2Rec]).2) ∧
    ({ AREANM := some "" : Rec } ∉ (filter_rows [{ AREANM := some "" : Rec }]).1) :=
  ⟨(C2_amended_empty_fields [c2Rec] c2Rec).2 rfl,
   ((C2_amended_empty_fields [{ AREANM := some "" }] { AREANM := some "" }).1
      (Or.inl rfl)).1⟩

/-- C6: the v123 output is a subset (in fact a sublist) of the v12
output, both outputs are order-preserving subsequences of the input, and
no deduplication happens: each record keeps its full multiplicity
whenever it passes the respective conditions. -/
theorem C6_filter_rows_algebra (rows : List Rec) :
    List.Sublist (filter_rows rows).2 (filter_rows rows).1 ∧
    List.Sublist (filter_rows rows).1 rows ∧
    List.Sublist (filter_rows rows).2 rows ∧
    (∀ r : Rec, (filter_rows rows).1.count r =
      if passes12 r then rows.count r else 0) ∧
    (∀ r : Rec, (filter_rows rows).2.count r =
      if passes12 r && passes3 r then rows.count r else 0) := by
  rw [filter_rows_eq_filter]
  refine ⟨?_, List.filter_sublist rows, List.filter_sublist rows, ?_, ?_⟩
  · have h : rows.filter (fun r => passes12 r && passes3 r) =
        (rows.filter passes12).filter passes3 := by
      rw [List.filter_filter]
      exact List.filter_congr (fun a _ => by rw [Bool.and_comm])
    rw [h]
    exact List.filter_sublist _
  · intro r
    by_cases h : passes12 r
    · simp [h, List.count_filter]
    · simp only [h, Bool.false_eq_true, if_false]
      rw [List.count_eq_zero]
      intro hmem
      exact h (List.mem_filter.mp hmem).2
  · intro r
    by_cases h : passes12 r && passes3 r
    · simp [h, List.count_filter]
    · simp only [h, Bool.false_eq_true, if_false]
      rw [List.count_eq_zero]
      intro hmem
      exact absurd ((List.mem_filter.mp hmem).2) (by simp_all)

/-! ## Claims about the Composer's rendering (C9, C10) -/

theorem push_eq_append (t : String) (c : Char) :
    t.push c = t ++ ⟨[c]⟩ := by
  cases t; rfl

/-- C9: for the limits the Composer uses (10, 19, 40), `trunc` leaves a
nonempty string of length ≤ N unchanged, replaces a longer string by its
first N-1 characters plus one ellipsis character for a total length of
exactly N, and renders the empty/missing string as the placeholder dash
before truncating. -/
theorem C9_trunc_spec (s : String) (n : Nat) (hn : n = 10 ∨ n = 19 ∨ n = 40) :
    trunc "" n = "-" ∧
    (s ≠ "" → s.length ≤ n → trunc s n = s) ∧
    (s ≠ "" → n < s.length →
      trunc s n = s.take (n - 1) ++ "…" ∧ (trunc s n).length = n) := by
  have h1 : 1 ≤ n := by rcases hn with h | h | h <;> omega
  refine ⟨?_, ?_, ?_⟩
  · unfold trunc
    rcases hn with h | h | h <;> subst h <;> rfl
  · intro hs hle
    unfold trunc
    simp [hs, hle]
  · intro hs hlt
    have hcond : ¬s.length ≤ n := Nat.not_le.mpr hlt
    have htr : trunc s n = (s.take (n - 1)).push '…' := by
      unfold trunc
      simp [hs, hcond]
    constructor
    · rw [htr, push_eq_append]
    · rw [htr, String.length_push]
      have : (s.take (n - 1)).length = min (n - 1) s.length := by
        have := String.data_take s (n - 1)
        simp only [String.length]
        rw [this, List.length_take]
      rw [this]
      omega

theorem C9_trunc_spec_witness :
    trunc "abcdefghijk" 10 = "abcdefghijk".take 9 ++ "…" ∧
      (trunc "abcdefghijk" 10).length = 10 :=
  (C9_trunc_spec "abcdefghijk" 10 (Or.inl rfl)).2.2 (by decide) (by decide)

/-- C10: each section's count line reports the full length of the loaded
list, while at most the first ten records after sorting are rendered; in
particular with more than ten records the reported count strictly exceeds
the number of record lines, and an empty list renders the fixed
no-matching-items sentence. -/
theorem C10_section_spec (title : String) (rows : List Rec) :
    (sectionLines title rows).take 4 = [title, "", countLine rows.length, ""] ∧
    (rows = [] → sectionLines title rows = [title, "", countLine 0, "", noMatchLine]) ∧
    (rows ≠ [] →
      (sectionLines title rows).drop 4 = ((sortRows rows).take 10).map line_for ∧
        ((sectionLines title rows).drop 4).length = min rows.length 10) ∧
    (10 < rows.length →
      ((sectionLines title rows).drop 4).length < rows.length) := by
  have hlen : rows ≠ [] →
      ((sectionLines title rows).drop 4).length = min rows.length 10 := by
    intro h
    have hb : rows.isEmpty = false := by
      cases rows
      · exact absurd rfl h
      · rfl
    simp [sectionLines, hb, sortRows, Nat.min_comm]
  refine ⟨?_, ?_, ?_, ?_⟩
  · simp [sectionLines]
  · intro h
    subst h
    rfl
  · intro h
    have hb : rows.isEmpty = false := by
      cases rows
      · exact absurd rfl h
      · rfl
    exact ⟨by simp [sectionLines, hb], hlen h⟩
  · intro h
    have hne : rows ≠ [] := by
      intro he
      rw [he] at h
      exact absurd h (by decide)
    rw [hlen hne]
    omega

/-- Eleven records: more than the ten-record rendering limit. -/
def elevenRecs : List Rec := List.replicate 11 {}

theorem C10_section_spec_witness :
    ((sectionLines "T" elevenRecs).drop 4).length < elevenRecs.length :=
  (C10_section_spec "T" elevenRecs).2.2.2 (by decide)

/-! ## Claims about pagination and exit codes (C3, C8) -/

/-- A world where every page fetch succeeds, reports total 2500, and
returns one row. -/
def c3World : FetchWorld :=
  ⟨some "key", fun _ => .ok (2500, [{}])⟩

/-- C3 counterexample: with a declared total of 2500 and no empty pages,
the run performs exactly 3 fetches, but the third requested range is
2001–3000 (`end = p * PAGE_SIZE`, not clamped to the total), refuting the
claimed 2001–2500. -/
theorem C3_counterexample :
    fetcherMain c3World 0 =
      some ⟨0, outFiles, [(1, 1000), (1001, 2000), (2001, 3000)]⟩ ∧
    ([(1, 1000), (1001, 2000), (2001, 3000)] : List (Nat × Nat)) ≠
      [(1, 1000), (1001, 2000), (2001, 2500)] := by
  constructor
  · rfl
  · decide

/-- C3 amended: if the first page reports total 2500 and no fetched page
is empty, exactly 3 pages are fetched, with ranges 1–1000, 1001–2000 and
2001–3000 (the last range's end is `p * PAGE_SIZE`, not clamped to the
declared total). -/
theorem C3_amended_pagination (w : FetchWorld) (fuel : Nat) (t2 t3 : Int)
    (r1 r2 r3 : List Rec)
    (hkey : pyStripS (w.apiKey.getD "") ≠ "")
    (h1 : w.pageData 1 = .ok (2500, r1))
    (h2 : w.pageData 2 = .ok (t2, r2))
    (h3 : w.pageData 3 = .ok (t3, r3))
    (hr1 : r1 ≠ []) (hr2 : r2 ≠ []) (hr3 : r3 ≠ []) :
    ∃ res : RunResult, fetcherMain w fuel = some res ∧
      res.ranges = [(1, 1000), (1001, 2000), (2001, 3000)] ∧
      res.ranges.length = 3 := by
  have e2 : r2.isEmpty = false := by
    cases r2
    · exact absurd rfl hr2
    · rfl
  have e3 : r3.isEmpty = false := by
    cases r3
    · exact absurd rfl hr3
    · rfl
  have hpages : List.range' 2 (totalPages (Int.toNat 2500) - 1) = [2, 3] := by decide
  have hrest : fetchRest w [2, 3] =
      (.ok (r2 ++ (r3 ++ [])), [(1001, 2000), (2001, 3000)]) := by
    simp only [fetchRest, h2, h3, e2, e3, if_false, Except.map]
    rfl
  refine ⟨⟨0, outFiles, [(1, 1000), (1001, 2000), (2001, 3000)]⟩, ?_, rfl, rfl⟩
  unfold fetcherMain
  rw [if_neg hkey, h1]
  simp only [show ((2500 : Int) > 0) = True by simp, if_true, hpages, hrest]
  rfl

theorem C3_amended_pagination_witness :
    ∃ res : RunResult, fetcherMain c3World 0 = some res ∧
      res.ranges = [(1, 1000), (1001, 2000), (2001, 3000)] ∧
      res.ranges.length = 3 :=
  C3_amended_pagination c3World 0 2500 2500 [{}] [{}] [{}]
    (by decide) rfl rfl rfl (by decide) (by decide) (by decide)

theorem fetchRest_ok (w : FetchWorld) (ps : List Nat)
    (h : ∀ p ∈ ps, w.pageData p ≠ .error ()) :
    ∃ rows, (fetchRest w ps).1 = .ok rows := by
  induction ps with
  | nil => exact ⟨[], rfl⟩
  | cons p rest ih =>
    rcases hp : w.pageData p with u | tr
    · exact absurd (by cases u; exact hp) (h p (List.mem_cons_self p rest))
    · obtain ⟨t, rows⟩ := tr
      by_cases he : rows.isEmpty
      · exact ⟨[], by simp [fetchRest, hp, he]⟩
      · obtain ⟨acc, hacc⟩ := ih (fun q hq => h q (List.mem_cons_of_mem p hq))
        refine ⟨rows ++ acc, ?_⟩
        simp [fetchRest, hp, he, hacc, Except.map]

/-- If an initial run of pages succeeds with nonempty rows and then page
`p` fails, the bounded page loop propagates the failure. -/
theorem fetchRest_error_split (w : FetchWorld) (p : Nat) (ps2 : List Nat) :
    ∀ ps1 : List Nat,
      (∀ q ∈ ps1, ∃ t rows, w.pageData q = .ok (t, rows) ∧ rows ≠ []) →
      w.pageData p = .error () →
      (fetchRest w (ps1 ++ p :: ps2)).1 = .error () := by
  intro ps1
  induction ps1 with
  | nil =>
    intro _ hp
    simp [fetchRest, hp]
  | cons q qs ih =>
    intro hok hp
    obtain ⟨t, rows, hq, hne⟩ := hok q (List.mem_cons_self q qs)
    have he : rows.isEmpty = false := by
      cases rows
      · exact absurd rfl hne
      · rfl
    have hrec := ih (fun q' hq' => hok q' (List.mem_cons_of_mem q hq')) hp
    simp [fetchRest, hq, he, hrec, Except.map]

/-- If pages `p .. p+k-1` succeed with nonempty rows and page `p+k`
fails, the probing loop (given enough fuel) propagates the failure. -/
theorem probePages_error (w : FetchWorld) :
    ∀ (k p fuel : Nat),
      (∀ q, p ≤ q → q < p + k → ∃ t rows, w.pageData q = .ok (t, rows) ∧ rows ≠ []) →
      w.pageData (p + k) = .error () →
      k < fuel →
      ∃ rs, probePages w fuel p = some (.error (), rs) := by
  intro k
  induction k with
  | zero =>
    intro p fuel _ hp hf
    obtain ⟨f, rfl⟩ : ∃ f, fuel = f + 1 := ⟨fuel - 1, by omega⟩
    refine ⟨[pageRange p], ?_⟩
    rw [show p + 0 = p from rfl] at hp
    simp only [probePages]
    rw [hp]
  | succ k ih =>
    intro p fuel hok hp hf
    obtain ⟨f, rfl⟩ : ∃ f, fuel = f + 1 := ⟨fuel - 1, by omega⟩
    obtain ⟨t, rows, hq, hne⟩ := hok p (le_refl p) (by omega)
    have he : rows.isEmpty = false := by
      cases rows
      · exact absurd rfl hne
      · rfl
    obtain ⟨rs, hrs⟩ := ih (p + 1) f
      (fun q hq1 hq2 => hok q (by omega) (by omega))
      (by rw [show p + 1 + k = p + (k + 1) from by omega]; exact hp)
      (by omega)
    refine ⟨pageRange p :: rs, ?_⟩
    simp only [probePages]
    rw [hq]
    simp [he, hrs, Except.map]

/-- C8: the two programs' fatal failures are all-or-nothing with distinct
exit codes.  The Fetcher exits 2 on a missing/empty API key and 3 on a
fetch failure — on the first page, or on any later page of either page
loop after earlier pages already returned rows — in every case writing no
output file (prior pages' partial results are discarded); every
terminating run exits 0, 2 or 3, and exactly the successful runs write
the four output files; with a positive declared total and no failing
page, the run succeeds with all four files.  The Composer's `load_list`
fails with exit code 3 on a missing file or a non-array root, silently
drops non-object array entries, and a run whose two loads succeed exits
0. -/
theorem C8_exit_codes :
    (∀ (w : FetchWorld) (fuel : Nat),
        pyStripS (w.apiKey.getD "") = "" → fetcherMain w fuel = some ⟨2, [], []⟩) ∧
    (∀ (w : FetchWorld) (fuel : Nat),
        pyStripS (w.apiKey.getD "") ≠ "" → w.pageData 1 = .error () →
        fetcherMain w fuel = some ⟨3, [], [pageRange 1]⟩) ∧
    (∀ (w : FetchWorld) (fuel : Nat) (total : Int) (r1 : List Rec) (p : Nat),
        pyStripS (w.apiKey.getD "") ≠ "" →
        w.pageData 1 = .ok (total, r1) →
        total > 0 →
        2 ≤ p → p ≤ totalPages total.toNat →
        (∀ q, 2 ≤ q → q < p → ∃ t rows, w.pageData q = .ok (t, rows) ∧ rows ≠ []) →
        w.pageData p = .error () →
        ∃ res : RunResult, fetcherMain w fuel = some res ∧
          res.exitCode = 3 ∧ res.files = []) ∧
    (∀ (w : FetchWorld) (fuel : Nat) (total : Int) (r1 : List Rec) (p : Nat),
        pyStripS (w.apiKey.getD "") ≠ "" →
        w.pageData 1 = .ok (total, r1) →
        ¬total > 0 →
        2 ≤ p → p - 2 < fuel →
        (∀ q, 2 ≤ q → q < p → ∃ t rows, w.pageData q = .ok (t, rows) ∧ rows ≠ []) →
        w.pageData p = .error () →
        ∃ res : RunResult, fetcherMain w fuel = some res ∧
          res.exitCode = 3 ∧ res.files = []) ∧
    (∀ (w : FetchWorld) (fuel : Nat) (res : RunResult),
        fetcherMain w fuel = some res →
        (res.exitCode = 0 ∨ res.exitCode = 2 ∨ res.exitCode = 3) ∧
          (res.exitCode = 0 → res.files = outFiles) ∧
          (res.exitCode ≠ 0 → res.files = [])) ∧
    (∀ (w : FetchWorld) (fuel : Nat) (total : Int) (r1 : List Rec),
        pyStripS (w.apiKey.getD "") ≠ "" → w.pageData 1 = .ok (total, r1) →
        total > 0 → (∀ p, w.pageData p ≠ .error ()) →
        ∃ res : RunResult, fetcherMain w fuel = some res ∧
          res.exitCode = 0 ∧ res.files = outFiles) ∧
    (load_list none = .error 3 ∧ load_list (some .nonArr) = .error 3) ∧
    (∀ rs1 rs2 : List Rec,
        load_list (some (.arr (rs1.map .obj ++ .nonObj :: rs2.map .obj))) =
          .ok (rs1 ++ rs2)) ∧
    (∀ (a b : Option JRoot) (ra rb : List Rec),
        load_list a = .ok ra → load_list b = .ok rb → composerMain a b = 0) := by
  refine ⟨?_, ?_, ?_, ?_, ?_, ?_, ⟨rfl, rfl⟩, ?_, ?_⟩
  · intro w fuel h
    unfold fetcherMain
    rw [if_pos h]
  · intro w fuel hk h1
    unfold fetcherMain
    rw [if_neg hk, h1]
  · intro w fuel total r1 p hk h1 hpos hp2 hptp hprior hperr
    have hsplit : List.range' 2 (totalPages total.toNat - 1) =
        List.range' 2 (p - 2) ++ p :: List.range' (p + 1) (totalPages total.toNat - p) := by
      have e1 : totalPages total.toNat - 1 =
          (totalPages total.toNat - p) + 1 + (p - 2) := by omega
      have e2 : 2 + (p - 2) = p := by omega
      rw [e1, ← List.range'_append_1 2 (p - 2) ((totalPages total.toNat - p) + 1), e2,
        List.range'_succ]
    have hE : (fetchRest w (List.range' 2 (totalPages total.toNat - 1))).1 = .error () := by
      rw [hsplit]
      apply fetchRest_error_split w p _ _ _ hperr
      intro q hq
      obtain ⟨i, hi, rfl⟩ := List.mem_range'.mp hq
      exact hprior (2 + 1 * i) (by omega) (by omega)
    rcases hfr : fetchRest w (List.range' 2 (totalPages total.toNat - 1)) with ⟨e, rs⟩
    rw [hfr] at hE
    simp only at hE
    subst hE
    refine ⟨⟨3, [], pageRange 1 :: rs⟩, ?_, rfl, rfl⟩
    unfold fetcherMain
    rw [if_neg hk, h1]
    simp only [hpos, if_true, hfr]
  · intro w fuel total r1 p hk h1 hpos hp2 hfuel hprior hperr
    obtain ⟨rs, hrs⟩ := probePages_error w (p - 2) 2 fuel
      (fun q hq1 hq2 => hprior q (by omega) (by omega))
      (by rw [show 2 + (p - 2) = p from by omega]; exact hperr)
      (by omega)
    refine ⟨⟨3, [], pageRange 1 :: rs⟩, ?_, rfl, rfl⟩
    unfold fetcherMain
    rw [if_neg hk, h1]
    simp only [hpos, if_false, hrs]
  · intro w fuel res h
    unfold fetcherMain at h
    split at h
    · simp only [Option.some.injEq] at h
      subst h
      simp
    · split at h
      · simp only [Option.some.injEq] at h
        subst h
        simp
      · split at h
        · cases h
        · simp only [Option.some.injEq] at h
          subst h
          simp
        · simp only [Option.some.injEq] at h
          subst h
          simp
  · intro w fuel total r1 hk h1 hpos hok
    rcases hfr : fetchRest w (List.range' 2 (totalPages total.toNat - 1)) with ⟨e, rs⟩
    obtain ⟨rows, hrows⟩ :=
      fetchRest_ok w (List.range' 2 (totalPages total.toNat - 1)) (fun p _ => hok p)
    rw [hfr] at hrows
    simp only at hrows
    subst hrows
    refine ⟨⟨0, outFiles, pageRange 1 :: rs⟩, ?_, rfl, rfl⟩
    unfold fetcherMain
    rw [if_neg hk, h1]
    simp only [hpos, if_true, hfr]
  · intro rs1 rs2
    have hobj : ∀ rs : List Rec,
        List.filterMap
          (fun it => match it with | JItem.obj r => some r | JItem.nonObj => none)
          (rs.map .obj) = rs := by
      intro rs
      induction rs with
      | nil => rfl
      | cons a l ih => simp [List.filterMap_cons, ih]
    simp [load_list, List.filterMap_append, List.filterMap_cons, hobj]
  · intro a b ra rb ha hb
    unfold composerMain
    rw [ha, hb]

theorem C8_exit_codes_witness :
    fetcherMain ⟨none, fun _ => .error ()⟩ 0 = some ⟨2, [], []⟩ :=
  C8_exit_codes.1 ⟨none, fun _ => .error ()⟩ 0 rfl

/-! ## C7: retry behaviour of `fetch_page` -/

theorem retryable_resp_cases (s : Nat) (pok : Bool)
    (h : retryable (.resp s pok) = true) :
    (200 ≤ s ∧ s < 300 ∧ pok = false) ∨
      (500 ≤ s ∧ s < 600 ∧ ¬(200 ≤ s ∧ s < 300)) := by
  simp only [retryable, Bool.or_eq_true, Bool.and_eq_true, Bool.not_eq_true',
    decide_eq_true_eq] at h
  rcases h with ⟨h2, hpok⟩ | h5
  · exact Or.inl ⟨h2.1, h2.2, hpok⟩
  · exact Or.inr ⟨h5.1, h5.2, by omega⟩

theorem fetchLoop_step_retry (att : Nat → Attempt) (r attempt backoff : Nat)
    (sleeps : List Nat) (h : retryable (att attempt) = true) :
    fetchLoop att (r + 2) attempt backoff sleeps =
      fetchLoop att (r + 1) (attempt + 1) (backoff * 2) (sleeps ++ [backoff]) := by
  have hne : ¬(r + 1 = 0) := Nat.succ_ne_zero r
  rcases hA : att attempt with _ | _ | ⟨s, pok⟩ <;> rw [hA] at h
  · rw [show r + 2 = (r + 1) + 1 from rfl]
    conv_lhs => rw [fetchLoop]
    simp [hA, hne]
  · rw [show r + 2 = (r + 1) + 1 from rfl]
    conv_lhs => rw [fetchLoop]
    simp [hA, hne]
  · rw [show r + 2 = (r + 1) + 1 from rfl]
    conv_lhs => rw [fetchLoop]
    rcases retryable_resp_cases s pok h with ⟨h2a, h2b, hpok⟩ | ⟨h5a, h5b, hn2⟩
    · subst hpok
      simp [hA, hne, h2a, h2b]
    · simp [hA, hne, hn2, h5a, h5b]

theorem fetchLoop_fatal (att : Nat → Attempt) (r attempt backoff : Nat)
    (sleeps : List Nat) (s : Nat) (pok : Bool)
    (hA : att attempt = .resp s pok)
    (h2 : ¬(200 ≤ s ∧ s < 300)) (h5 : ¬(500 ≤ s ∧ s < 600)) :
    fetchLoop att (r + 1) attempt backoff sleeps =
      ⟨.fatalStatus s attempt, attempt, sleeps⟩ := by
  conv_lhs => rw [fetchLoop]
  simp [hA, h2, h5]

theorem fetchLoop_last_retryable (att : Nat → Attempt) (attempt backoff : Nat)
    (sleeps : List Nat) (h : retryable (att attempt) = true) :
    (fetchLoop att 1 attempt backoff sleeps).attempts = attempt ∧
    (fetchLoop att 1 attempt backoff sleeps).sleeps = sleeps ∧
    ((fetchLoop att 1 attempt backoff sleeps).outcome = .exhausted ∨
      ∃ s, (fetchLoop att 1 attempt backoff sleeps).outcome = .serverErrFinal s) := by
  rcases hA : att attempt with _ | _ | ⟨s, pok⟩ <;> rw [hA] at h <;>
    conv_lhs => rw [show (1 : Nat) = 0 + 1 from rfl]
  · simp [fetchLoop, hA]
  · simp [fetchLoop, hA]
  · rcases retryable_resp_cases s pok h with ⟨h2a, h2b, hpok⟩ | ⟨h5a, h5b, hn2⟩
    · subst hpok
      simp [fetchLoop, hA, h2a, h2b]
    · simp [fetchLoop, hA, hn2, h5a, h5b]

theorem fetchLoop_not_retryable (att : Nat → Attempt) (r attempt backoff : Nat)
    (sleeps : List Nat) (h : retryable (att attempt) = false) :
    ∃ o, fetchLoop att (r + 1) attempt backoff sleeps = ⟨o, attempt, sleeps⟩ := by
  rcases hA : att attempt with _ | _ | ⟨s, pok⟩ <;> rw [hA] at h
  · simp [retryable] at h
  · simp [retryable] at h
  · simp only [retryable, Bool.or_eq_false_iff, Bool.and_eq_false_iff,
      Bool.not_eq_false', decide_eq_false_iff_not] at h
    by_cases h2 : 200 ≤ s ∧ s < 300
    · have hpok : pok = true := by
        rcases h.1 with h' | h'
        · exact absurd h2 h'
        · exact h'
      refine ⟨.ok attempt, ?_⟩
      conv_lhs => rw [fetchLoop]
      simp [hA, h2, hpok]
    · refine ⟨.fatalStatus s attempt, ?_⟩
      conv_lhs => rw [fetchLoop]
      simp [hA, h2, h.2]

theorem fetchLoop_invariant (att : Nat → Attempt) :
    ∀ (remaining attempt : Nat) (sleeps : List Nat),
      1 ≤ remaining → 1 ≤ attempt → attempt + remaining = MAX_RETRIES + 1 →
      sleeps = (List.range (attempt - 1)).map (fun i => 2 ^ i) →
      attempt ≤ (fetchLoop att remaining attempt (2 ^ (attempt - 1)) sleeps).attempts ∧
      (fetchLoop att remaining attempt (2 ^ (attempt - 1)) sleeps).attempts ≤ MAX_RETRIES ∧
      (fetchLoop att remaining attempt (2 ^ (attempt - 1)) sleeps).sleeps =
        (List.range
          ((fetchLoop att remaining attempt (2 ^ (attempt - 1)) sleeps).attempts - 1)).map
          (fun i => 2 ^ i) := by
  intro remaining
  induction remaining with
  | zero =>
    intro attempt sleeps h
    exact absurd h (by omega)
  | succ r ih =>
    intro attempt sleeps h1 hattempt h4 hs
    by_cases hr : r = 0
    · subst hr
      have ha3 : attempt = MAX_RETRIES := by
        simp only [MAX_RETRIES] at h4 ⊢
        omega
      by_cases hR : retryable (att attempt) = true
      · obtain ⟨hat, hsl, -⟩ :=
          fetchLoop_last_retryable att attempt (2 ^ (attempt - 1)) sleeps hR
        refine ⟨hat.ge, le_of_eq (hat.trans ha3), ?_⟩
        rw [hat, hsl, hs]
      · obtain ⟨o, ho⟩ := fetchLoop_not_retryable att 0 attempt (2 ^ (attempt - 1)) sleeps
          (Bool.not_eq_true _ ▸ hR)
        rw [ho]
        refine ⟨le_refl _, le_of_eq ha3, ?_⟩
        rw [hs]
    · obtain ⟨r', rfl⟩ : ∃ r', r = r' + 1 := ⟨r - 1, by omega⟩
      by_cases hR : retryable (att attempt) = true
      · rw [fetchLoop_step_retry att r' attempt (2 ^ (attempt - 1)) sleeps hR]
        have e1 : 2 ^ (attempt - 1) * 2 = 2 ^ ((attempt + 1) - 1) := by
          rw [← Nat.pow_succ]
          congr 1
          omega
        have e2 : sleeps ++ [2 ^ (attempt - 1)] =
            (List.range ((attempt + 1) - 1)).map (fun i => 2 ^ i) := by
          subst hs
          have : (attempt + 1) - 1 = (attempt - 1) + 1 := by omega
          rw [this, List.range_succ, List.map_append]
          rfl
        rw [e1, e2]
        have := ih (attempt + 1) ((List.range ((attempt + 1) - 1)).map (fun i => 2 ^ i))
          (by omega) (by omega) (by simp only [MAX_RETRIES] at h4 ⊢; omega) rfl
        exact ⟨by omega, this.2.1, this.2.2⟩
      · obtain ⟨o, ho⟩ := fetchLoop_not_retryable att (r' + 1) attempt (2 ^ (attempt - 1)) sleeps
          (Bool.not_eq_true _ ▸ hR)
        rw [ho]
        refine ⟨le_refl _, ?_, ?_⟩
        · simp only [MAX_RETRIES] at h4 ⊢
          omega
        · rw [hs]

/-- C7: `fetch_page` makes at most 3 attempts; the backoffs it sleeps are
exactly 1, 2, ... doubling, one fewer than the attempts it made; when the
first attempts hit only retryable conditions (connection error, timeout,
5xx, or body-parse failure on 2xx) and attempt `k` returns a
non-retryable non-2xx/5xx status, it raises `HTTP {status}` fatally at
attempt `k` with no further retry; and when all 3 attempts hit retryable
conditions it ends fatally (retries exhausted or final server error)
after exactly 3 attempts and sleeps 1 then 2. -/
theorem C7_fetch_page_retry (att : Nat → Attempt) :
    (fetch_page att).attempts ≤ MAX_RETRIES ∧
    (fetch_page att).sleeps =
      (List.range ((fetch_page att).attempts - 1)).map (fun i => 2 ^ i) ∧
    (∀ (k s : Nat) (pok : Bool), 1 ≤ k → k ≤ 3 →
      (∀ j, 1 ≤ j → j < k → retryable (att j) = true) →
      att k = .resp s pok → ¬(200 ≤ s ∧ s < 300) → ¬(500 ≤ s ∧ s < 600) →
      fetch_page att =
        ⟨.fatalStatus s k, k, (List.range (k - 1)).map (fun i => 2 ^ i)⟩) ∧
    ((∀ j, 1 ≤ j → j ≤ 3 → retryable (att j) = true) →
      (fetch_page att).attempts = 3 ∧ (fetch_page att).sleeps = [1, 2] ∧
        ((fetch_page att).outcome = .exhausted ∨
          ∃ s, (fetch_page att).outcome = .serverErrFinal s)) := by
  have hfp : fetch_page att = fetchLoop att 3 1 (2 ^ (1 - 1)) [] := rfl
  have hinv := fetchLoop_invariant att 3 1 [] (by omega) (by omega)
    (by simp [MAX_RETRIES]) rfl
  rw [← hfp] at hinv
  refine ⟨hinv.2.1, hinv.2.2, ?_, ?_⟩
  · intro k s pok hk1 hk3 hprev hA h2 h5
    interval_cases k
    · rw [hfp]
      rw [show (3 : Nat) = 2 + 1 from rfl,
        fetchLoop_fatal att 2 1 (2 ^ (1 - 1)) [] s pok hA h2 h5]
      rfl
    · have hs1 := hprev 1 (by omega) (by omega)
      rw [hfp, show (3 : Nat) = 1 + 2 from rfl,
        fetchLoop_step_retry att 1 1 (2 ^ (1 - 1)) [] hs1,
        show (1 : Nat) + 1 = 1 + 1 from rfl,
        fetchLoop_fatal att 1 2 (2 ^ (1 - 1) * 2) ([] ++ [2 ^ (1 - 1)]) s pok hA h2 h5]
      rfl
    · have hs1 := hprev 1 (by omega) (by omega)
      have hs2 := hprev 2 (by omega) (by omega)
      rw [hfp, show (3 : Nat) = 1 + 2 from rfl,
        fetchLoop_step_retry att 1 1 (2 ^ (1 - 1)) [] hs1,
        show (1 : Nat) + 1 = 0 + 2 from rfl,
        fetchLoop_step_retry att 0 2 (2 ^ (1 - 1) * 2) ([] ++ [2 ^ (1 - 1)]) hs2,
        fetchLoop_fatal att 0 3 (2 ^ (1 - 1) * 2 * 2)
          (([] ++ [2 ^ (1 - 1)]) ++ [2 ^ (1 - 1) * 2]) s pok hA h2 h5]
      rfl
  · intro hall
    have hs1 := hall 1 (by omega) (by omega)
    have hs2 := hall 2 (by omega) (by omega)
    have hs3 := hall 3 (by omega) (by omega)
    have hchain : fetch_page att =
        fetchLoop att 1 3 (2 ^ (1 - 1) * 2 * 2) (([] ++ [2 ^ (1 - 1)]) ++ [2 ^ (1 - 1) * 2]) := by
      rw [hfp, show (3 : Nat) = 1 + 2 from rfl,
        fetchLoop_step_retry att 1 1 (2 ^ (1 - 1)) [] hs1,
        show (1 : Nat) + 1 = 0 + 2 from rfl,
        fetchLoop_step_retry att 0 2 (2 ^ (1 - 1) * 2) ([] ++ [2 ^ (1 - 1)]) hs2]
    obtain ⟨hat, hsl, hout⟩ := fetchLoop_last_retryable att 3 (2 ^ (1 - 1) * 2 * 2)
      (([] ++ [2 ^ (1 - 1)]) ++ [2 ^ (1 - 1) * 2]) hs3
    rw [← hchain] at hat hsl hout
    exact ⟨hat, by rw [hsl]; rfl, hout⟩

/-- An attempt oracle that always times out. -/
def allTimeouts : Nat → Attempt := fun _ => .timeoutErr

theorem C7_fetch_page_retry_witness :
    (fetch_page allTimeouts).attempts = 3 ∧ (fetch_page allTimeouts).sleeps = [1, 2] ∧
      ((fetch_page allTimeouts).outcome = .exhausted ∨
        ∃ s, (fetch_page allTimeouts).outcome = .serverErrFinal s) :=
  (C7_fetch_page_retry allTimeouts).2.2.2 (fun j _ _ => rfl)

/-! ## C4: `parse_dt` format precedence and failure behaviour -/

/-- C4: `parse_dt` strips surrounding whitespace and tries the five
formats in strict precedence order, returning the instant of the first
format that matches; if no format matches — including the empty string
and garbage — it returns `none`.  The concrete conjuncts check one
round-trip per format and the whitespace stripping. -/
theorem C4_parse_dt_precedence :
    (∀ (s : String) (i : Nat) (hi : i < fmts.length) (d : DateTime),
        s ≠ "" →
        parse_fmt (fmts.get ⟨i, hi⟩) (pyStrip s.toList) = some d →
        (∀ (j : Nat) (hj : j < i),
          parse_fmt (fmts.get ⟨j, Nat.lt_trans hj hi⟩) (pyStrip s.toList) = none) →
        parse_dt s = some d) ∧
    (∀ s : String,
        (∀ (j : Nat) (hj : j < fmts.length),
          parse_fmt (fmts.get ⟨j, hj⟩) (pyStrip s.toList) = none) →
        parse_dt s = none) ∧
    parse_dt "" = none ∧
    parse_dt "not a date" = none ∧
    parse_dt "2025-08-25 10:00:00.5" = some ⟨2025, 8, 25, 10, 0, 0, 500000⟩ ∧
    parse_dt "2025-08-25 10:00:00" = some ⟨2025, 8, 25, 10, 0, 0, 0⟩ ∧
    parse_dt "2025-08-25" = some ⟨2025, 8, 25, 0, 0, 0, 0⟩ ∧
    parse_dt "20250825100000" = some ⟨2025, 8, 25, 10, 0, 0, 0⟩ ∧
    parse_dt "20250825" = some ⟨2025, 8, 25, 0, 0, 0, 0⟩ ∧
    parse_dt "  2025-08-25  " = some ⟨2025, 8, 25, 0, 0, 0, 0⟩ := by
  refine ⟨?_, ?_, rfl, by decide, by decide, by decide, by decide, by decide,
    by decide, by decide⟩
  · intro s i hi d hs hp hprev
    unfold parse_dt
    rw [if_neg hs]
    have hi5 : i < 5 := by
      have h5 : fmts.length = 5 := rfl
      omega
    interval_cases i
    · simp only [fmts, tryFmts]
      rw [show fmts.get ⟨0, hi⟩ = fmt1 from rfl] at hp
      rw [hp]
    · have h0 : parse_fmt fmt1 (pyStrip s.toList) = none := hprev 0 (by omega)
      rw [show fmts.get ⟨1, hi⟩ = fmt2 from rfl] at hp
      simp only [fmts, tryFmts]
      rw [h0, hp]
    · have h0 : parse_fmt fmt1 (pyStrip s.toList) = none := hprev 0 (by omega)
      have h1 : parse_fmt fmt2 (pyStrip s.toList) = none := hprev 1 (by omega)
      rw [show fmts.get ⟨2, hi⟩ = fmt3 from rfl] at hp
      simp only [fmts, tryFmts]
      rw [h0, h1, hp]
    · have h0 : parse_fmt fmt1 (pyStrip s.toList) = none := hprev 0 (by omega)
      have h1 : parse_fmt fmt2 (pyStrip s.toList) = none := hprev 1 (by omega)
      have h2 : parse_fmt fmt3 (pyStrip s.toList) = none := hprev 2 (by omega)
      rw [show fmts.get ⟨3, hi⟩ = fmt4 from rfl] at hp
      simp only [fmts, tryFmts]
      rw [h0, h1, h2, hp]
    · have h0 : parse_fmt fmt1 (pyStrip s.toList) = none := hprev 0 (by omega)
      have h1 : parse_fmt fmt2 (pyStrip s.toList) = none := hprev 1 (by omega)
      have h2 : parse_fmt fmt3 (pyStrip s.toList) = none := hprev 2 (by omega)
      have h3 : parse_fmt fmt4 (pyStrip s.toList) = none := hprev 3 (by omega)
      rw [show fmts.get ⟨4, hi⟩ = fmt5 from rfl] at hp
      simp only [fmts, tryFmts]
      rw [h0, h1, h2, h3, hp]
  · intro s hall
    by_cases hs : s = ""
    · rw [hs]
      rfl
    · unfold parse_dt
      rw [if_neg hs]
      have h0 : parse_fmt fmt1 (pyStrip s.toList) = none := hall 0 (by decide)
      have h1 : parse_fmt fmt2 (pyStrip s.toList) = none := hall 1 (by decide)
      have h2 : parse_fmt fmt3 (pyStrip s.toList) = none := hall 2 (by decide)
      have h3 : parse_fmt fmt4 (pyStrip s.toList) = none := hall 3 (by decide)
      have h4 : parse_fmt fmt5 (pyStrip s.toList) = none := hall 4 (by decide)
      simp only [fmts, tryFmts]
      rw [h0, h1, h2, h3, h4]

theorem C4_parse_dt_precedence_witness :
    parse_dt "2025-12-31" = some ⟨2025, 12, 31, 0, 0, 0, 0⟩ :=
  C4_parse_dt_precedence.1 "2025-12-31" 2 (by decide) ⟨2025, 12, 31, 0, 0, 0, 0⟩
    (by decide) (by decide)
    (fun j hj => by
      have hj2 : j = 0 ∨ j = 1 := by omega
      rcases hj2 with h | h
      · subst h
        exact (by decide : parse_fmt fmt1 (pyStrip "2025-12-31".toList) = none)
      · subst h
        exact (by decide : parse_fmt fmt2 (pyStrip "2025-12-31".toList) = none))

/-! ## C5: the sort key and the stable sort -/

theorem mkDT_valid {rf : RawFields} {d : DateTime} (h : mkDT rf = some d) :
    validDT d = true := by
  unfold mkDT at h
  split at h
  · rename_i hc
    injection h with h
    subst h
    have hd : daysInMonth rf.y rf.mo ≤ 31 := by
      unfold daysInMonth
      repeat' split
      all_goals omega
    simp only [Bool.and_eq_true, decide_eq_true_eq] at hc
    simp only [validDT, Bool.and_eq_true, decide_eq_true_eq]
    omega
  · cases h

theorem parse_fmt_valid {toks : List FTok} {cs : List Char} {d : DateTime}
    (h : parse_fmt toks cs = some d) : validDT d = true := by
  unfold parse_fmt at h
  rcases hr : runToks toks {} cs with _ | ⟨⟨rf, rest⟩, tl⟩
  · rw [hr] at h
    exact Option.noConfusion h
  · rw [hr] at h
    have h' : (if rest.isEmpty = true then mkDT rf else none) = some d := h
    by_cases he : rest.isEmpty = true
    · rw [if_pos he] at h'
      exact mkDT_valid h'
    · rw [if_neg he] at h'
      exact Option.noConfusion h'

theorem tryFmts_valid {fs : List (List FTok)} {cs : List Char} {d : DateTime}
    (h : tryFmts fs cs = some d) : validDT d = true := by
  induction fs with
  | nil => cases h
  | cons f fs ih =>
    unfold tryFmts at h
    rcases hp : parse_fmt f cs with _ | d'
    · rw [hp] at h
      exact ih h
    · rw [hp] at h
      injection h with h
      subst h
      exact parse_fmt_valid hp

theorem parse_dt_valid {s : String} {d : DateTime} (h : parse_dt s = some d) :
    validDT d = true := by
  unfold parse_dt at h
  split at h
  · cases h
  · exact tryFmts_valid h

theorem validDT_dtMax : validDT dtMax = true := by decide

theorem sort_key_valid (r : Rec) : validDT (sort_key r) = true := by
  unfold sort_key
  rcases h1 : parse_dt (getS r.RCPTBGNDT) with _ | d
  · rcases h2 : parse_dt (getS r.SVCOPNBGNDT) with _ | d
    · exact validDT_dtMax
    · exact parse_dt_valid h2
  · exact parse_dt_valid h1

theorem dtCode_le_max {d : DateTime} (h : validDT d = true) :
    dtCode d ≤ dtCode dtMax := by
  rcases d with ⟨y, mo, da, hh, mi, ss, us⟩
  simp only [validDT, Bool.and_eq_true, decide_eq_true_eq] at h
  simp only [dtCode, dtMax]
  omega

theorem dtCode_eq_max {d : DateTime} (h : validDT d = true)
    (he : dtCode d = dtCode dtMax) : d = dtMax := by
  rcases d with ⟨y, mo, da, hh, mi, ss, us⟩
  simp only [validDT, Bool.and_eq_true, decide_eq_true_eq] at h
  simp only [dtCode, dtMax] at he ⊢
  simp only [DateTime.mk.injEq]
  omega

theorem dtCode_le_iff_dtLex {a b : DateTime}
    (ha : validDT a = true) (hb : validDT b = true) :
    dtCode a ≤ dtCode b ↔ dtLex a b := by
  rcases a with ⟨y1, mo1, da1, h1, mi1, s1, u1⟩
  rcases b with ⟨y2, mo2, da2, h2, mi2, s2, u2⟩
  simp only [validDT, Bool.and_eq_true, decide_eq_true_eq] at ha hb
  simp only [dtCode, dtLex]
  omega

theorem rowLe_trans : ∀ a b c : Rec,
    rowLe a b → rowLe b c → rowLe a c := by
  intro a b c hab hbc
  simp only [rowLe, decide_eq_true_eq] at *
  omega

theorem rowLe_total : ∀ a b : Rec, rowLe a b || rowLe b a := by
  intro a b
  simp only [rowLe, Bool.or_eq_true, decide_eq_true_eq]
  exact Nat.le_total _ _

/-- C5: the sort key is the parsed reception-begin timestamp, else the
parsed operation-begin timestamp, else `datetime.max`; sorting by it is a
permutation of the input, yields pairwise non-decreasing keys (in
Python's lexicographic `datetime` order), is stable (for each key value,
the sorted list restricted to that key equals the input restricted to
it), and places every sentinel-keyed record after all others. -/
theorem C5_sort_key_and_sort :
    (∀ (r : Rec) (d : DateTime),
        parse_dt (getS r.RCPTBGNDT) = some d → sort_key r = d) ∧
    (∀ (r : Rec) (d : DateTime),
        parse_dt (getS r.RCPTBGNDT) = none →
        parse_dt (getS r.SVCOPNBGNDT) = some d → sort_key r = d) ∧
    (∀ r : Rec,
        parse_dt (getS r.RCPTBGNDT) = none →
        parse_dt (getS r.SVCOPNBGNDT) = none → sort_key r = dtMax) ∧
    (∀ rows : List Rec, List.Perm (sortRows rows) rows) ∧
    (∀ rows : List Rec,
        (sortRows rows).Pairwise (fun a b => dtLex (sort_key a) (sort_key b))) ∧
    (∀ (rows : List Rec) (k : Nat),
        (sortRows rows).filter (fun r => decide (dtCode (sort_key r) = k)) =
          rows.filter (fun r => decide (dtCode (sort_key r) = k))) ∧
    (∀ (rows : List Rec) (i j : Fin (sortRows rows).length),
        i ≤ j → sort_key ((sortRows rows).get i) = dtMax →
        sort_key ((sortRows rows).get j) = dtMax) := by
  refine ⟨?_, ?_, ?_, ?_, ?_, ?_, ?_⟩
  · intro r d h
    unfold sort_key
    rw [h]
  · intro r d h1 h2
    unfold sort_key
    rw [h1, h2]
  · intro r h1 h2
    unfold sort_key
    rw [h1, h2]
  · intro rows
    exact List.mergeSort_perm rows rowLe
  · intro rows
    have hp : (sortRows rows).Pairwise (fun a b => rowLe a b = true) :=
      List.sorted_mergeSort rowLe_trans rowLe_total rows
    refine hp.imp ?_
    intro a b hab
    simp only [rowLe, decide_eq_true_eq] at hab
    exact (dtCode_le_iff_dtLex (sort_key_valid a) (sort_key_valid b)).mp hab
  · intro rows k
    have hself : (rows.filter (fun r => decide (dtCode (sort_key r) = k))).filter
        (fun r => decide (dtCode (sort_key r) = k)) =
          rows.filter (fun r => decide (dtCode (sort_key r) = k)) := by
      apply List.filter_eq_self.mpr
      intro a ha
      exact (List.mem_filter.mp ha).2
    have hpw : (rows.filter (fun r => decide (dtCode (sort_key r) = k))).Pairwise
        (fun a b => rowLe a b = true) := by
      apply List.pairwise_iff_forall_sublist.mpr
      intro a b hab
      have ha : a ∈ rows.filter (fun r => decide (dtCode (sort_key r) = k)) :=
        hab.subset (by simp)
      have hb : b ∈ rows.filter (fun r => decide (dtCode (sort_key r) = k)) :=
        hab.subset (by simp)
      have hka := (List.mem_filter.mp ha).2
      have hkb := (List.mem_filter.mp hb).2
      simp only [decide_eq_true_eq] at hka hkb
      simp only [rowLe, decide_eq_true_eq, hka, hkb]
      exact le_refl _
    have hsub : List.Sublist (rows.filter (fun r => decide (dtCode (sort_key r) = k)))
        (sortRows rows) :=
      List.sublist_mergeSort rowLe_trans rowLe_total hpw (List.filter_sublist rows)
    have hsub2 : List.Sublist (rows.filter (fun r => decide (dtCode (sort_key r) = k)))
        ((sortRows rows).filter (fun r => decide (dtCode (sort_key r) = k))) := by
      have := hsub.filter (fun r => decide (dtCode (sort_key r) = k))
      rwa [hself] at this
    have hperm : List.Perm
        ((sortRows rows).filter (fun r => decide (dtCode (sort_key r) = k)))
        (rows.filter (fun r => decide (dtCode (sort_key r) = k))) :=
      (List.mergeSort_perm rows rowLe).filter _
    exact (hsub2.eq_of_length hperm.length_eq.symm).symm
  · intro rows i j hij hmax
    rcases Nat.eq_or_lt_of_le (show i.val ≤ j.val from hij) with heq | hlt
    · rw [show j = i from (Fin.ext heq.symm)]
      exact hmax
    · have hp : (sortRows rows).Pairwise (fun a b => rowLe a b = true) :=
        List.sorted_mergeSort rowLe_trans rowLe_total rows
      have hle := List.pairwise_iff_getElem.mp hp i.val j.val i.isLt j.isLt hlt
      simp only [rowLe, decide_eq_true_eq] at hle
      rw [List.get_eq_getElem] at hmax ⊢
      rw [hmax] at hle
      refine dtCode_eq_max (sort_key_valid _) (Nat.le_antisymm ?_ hle)
      exact dtCode_le_max (sort_key_valid _)

theorem C5_sort_key_and_sort_witness :
    Yeyak.sort_key {} = dtMax :=
  C5_sort_key_and_sort.2.2.1 {} rfl rfl

end Yeyak

